import Mathlib

/-!
Verification development for the JackiesList recurring-task and
completion-analytics core. The definitions below are a shallow embedding of
the TypeScript sources: `src/utils/recurrence.ts`, `src/utils/date.ts`,
`src/utils/completionAnalytics.ts`, `src/services/taskService.ts` and
`src/services/settingsService.ts`. JavaScript `Date` values are modelled as
civil calendar dates (year, zero-based month, one-based day) together with a
rata-die day count; timestamps are integers in milliseconds.
-/

namespace JackiesList

/-- Civil calendar date as held by a JavaScript `Date` at local midnight:
`year` is the full year (restricted to the common era), `month` is zero-based
(0 = January, as returned by `getMonth`), `day` is one-based. -/
structure CDate where
  year : Nat
  month : Nat
  day : Nat
deriving DecidableEq, Repr

/-- Gregorian leap-year test, as used by JavaScript `Date` normalization. -/
def isLeapYear (y : Nat) : Bool :=
  (y % 4 == 0 && !(y % 100 == 0)) || y % 400 == 0

/-- Number of days in the given zero-based month of the given year.
The catch-all branch is never reached for months 0..11. -/
def daysInMonth (y : Nat) (m : Nat) : Nat :=
  match m with
  | 0 => 31
  | 1 => if isLeapYear y then 29 else 28
  | 2 => 31
  | 3 => 30
  | 4 => 31
  | 5 => 30
  | 6 => 31
  | 7 => 31
  | 8 => 30
  | 9 => 31
  | 10 => 30
  | _ => 31

/-- Days in year `y` that precede zero-based month `m`. -/
def daysBeforeMonth (y : Nat) : Nat → Nat
  | 0 => 0
  | m + 1 => daysBeforeMonth y m + daysInMonth y m

/-- Days in the common era that precede January 1 of year `y`
(year 0 counts as a leap year, matching the Gregorian rules). -/
def daysBeforeYear (y : Nat) : Nat :=
  365 * y + ((y + 3) / 4 + (y + 399) / 400 - (y + 99) / 100)

/-- Rata-die style day number of a civil date: the linear day count that
JavaScript `Date` comparison and day arithmetic are based on. -/
def toRata (dt : CDate) : Nat :=
  daysBeforeYear dt.year + daysBeforeMonth dt.year dt.month + dt.day

/-- A date is valid when its month is in range and its day fits the month. -/
def ValidDate (dt : CDate) : Prop :=
  dt.month < 12 ∧ 1 ≤ dt.day ∧ dt.day ≤ daysInMonth dt.year dt.month

instance : DecidablePred ValidDate := fun dt => by
  unfold ValidDate; infer_instance

/-- JavaScript `Date` field normalization for a possibly overflowing
day-of-month: an overflow of at most one month is rolled forward, which is
exactly what happens for the bounded overflows produced by `setDate`,
`setMonth` and `setFullYear` on valid dates. -/
def rollDay (y m d : Nat) : CDate :=
  if d ≤ daysInMonth y m then ⟨y, m, d⟩
  else if m = 11 then ⟨y + 1, 0, d - daysInMonth y m⟩
  else ⟨y, m + 1, d - daysInMonth y m⟩

/-- One application of `setDate(getDate() + 1)`. -/
def addDays1 (dt : CDate) : CDate :=
  rollDay dt.year dt.month (dt.day + 1)

/-- `setDate(getDate() + n)` on a valid date: `n` successive day steps. -/
def addDays (n : Nat) (dt : CDate) : CDate :=
  addDays1^[n] dt

/-- `setMonth(getMonth() + k)`: month arithmetic with year carry, keeping the
day-of-month and letting any day overflow roll forward. -/
def addMonths (k : Nat) (dt : CDate) : CDate :=
  rollDay (dt.year + (dt.month + k) / 12) ((dt.month + k) % 12) dt.day

/-- `setFullYear(getFullYear() + k)`: keeps month and day-of-month, letting a
Feb 29 overflow roll forward. -/
def addYears (k : Nat) (dt : CDate) : CDate :=
  rollDay (dt.year + k) dt.month dt.day

/-- Day-level comparison of two `Date` values, as used by the generation
loops (`currentDate <= endDate` on millisecond timestamps at equal
times-of-day compares the civil days). -/
def dateLe (a b : CDate) : Bool :=
  decide (toRata a ≤ toRata b)

/-- Strict day-level comparison. -/
def dateLt (a b : CDate) : Bool :=
  decide (toRata a < toRata b)

/-- Embedding of `getNextRecurrenceDate` from `src/utils/recurrence.ts`.
The pattern is kept as a string because the JavaScript switch dispatches on
the runtime string value; an unrecognized pattern matches no case and the
date is returned unchanged. A `custom` pattern adds `interval` days, but
only when `interval` is truthy (present and nonzero). -/
def getNextRecurrenceDate (currentDate : CDate) (pattern : String)
    (interval : Option Nat) : CDate :=
  match pattern with
  | "daily" => addDays 1 currentDate
  | "weekly" => addDays 7 currentDate
  | "biweekly" => addDays 14 currentDate
  | "monthly" => addMonths 1 currentDate
  | "quarterly" => addMonths 3 currentDate
  | "annually" => addYears 1 currentDate
  | "custom" =>
      match interval with
      | some n => if n = 0 then currentDate else addDays n currentDate
      | none => currentDate
  | _ => currentDate

/-- A persisted task, `Task` from `src/types`. The due date is held as a
civil date (the wire format `YYYY-MM-DD` serializes it bijectively) and the
due time as an optional (hour, minute) pair. -/
structure Task where
  id : String
  title : String
  description : Option String
  type : String
  dueDate : CDate
  dueTime : Option (Nat × Nat)
  isRecurring : Bool
  recurrencePattern : Option String
  recurrenceInterval : Option Nat
  priority : String
  categoryId : Option String
deriving DecidableEq, Repr

/-- A task-creation record, `Omit<Task, id | createdAt | updatedAt>`. -/
structure TaskInput where
  title : String
  description : Option String
  type : String
  dueDate : CDate
  dueTime : Option (Nat × Nat)
  isRecurring : Bool
  recurrencePattern : Option String
  recurrenceInterval : Option Nat
  priority : String
  categoryId : Option String
deriving DecidableEq, Repr

/-- A completion record; `completedAt` is a millisecond timestamp on the
same linear scale as `toRata * msPerDay`. -/
structure TaskCompletion where
  id : String
  taskId : String
  completedAt : Int
  notes : Option String
deriving DecidableEq, Repr

def msPerHour : Int := 1000 * 60 * 60

def msPerDay : Int := 24 * msPerHour

/-- Result record of `analyzeTaskCompletion` from
`src/utils/completionAnalytics.ts`; `hoursLate` is the exact real quotient
the JavaScript division computes, `daysLate` its floor divided by 24. -/
structure TaskCompletionAnalytics where
  wasCompletedLate : Bool
  hoursLate : Option ℚ
  daysLate : Option Int
  completionDateTime : Int
  dueDateTime : Int
deriving DecidableEq, Repr

/-- Millisecond timestamp of local midnight of a civil date. -/
def dayStartMs (dt : CDate) : Int :=
  (toRata dt : Int) * msPerDay

/-- The due date-time the source constructs by `setHours`: the hour and
minute of the due time with seconds and milliseconds zeroed, or
`setHours(23, 59, 59, 999)` when no due time is present. -/
def codeDueDateTime (task : Task) : Int :=
  match task.dueTime with
  | some (h, mi) => dayStartMs task.dueDate + (h : Int) * msPerHour + (mi : Int) * 60000
  | none => dayStartMs task.dueDate + 23 * msPerHour + 59 * 60000 + 59 * 1000 + 999

/-- Embedding of `analyzeTaskCompletion`: compare the completion timestamp
with the constructed due date-time and derive the lateness metrics on the
late branch only (`hoursLate` is the millisecond gap over `1000 * 60 * 60`,
`daysLate` its floor over 24). -/
def analyzeTaskCompletion (task : Task) (completion : TaskCompletion) :
    TaskCompletionAnalytics :=
  if codeDueDateTime task < completion.completedAt then
    { wasCompletedLate := true
      hoursLate :=
        some (((completion.completedAt - codeDueDateTime task : Int) : ℚ) / (1000 * 60 * 60))
      daysLate :=
        some ((((completion.completedAt - codeDueDateTime task : Int) : ℚ) / (1000 * 60 * 60)) / 24).floor
      completionDateTime := completion.completedAt
      dueDateTime := codeDueDateTime task }
  else
    { wasCompletedLate := false
      hoursLate := none
      daysLate := none
      completionDateTime := completion.completedAt
      dueDateTime := codeDueDateTime task }

/-- Result record of `analyzeCompletionStats`. -/
structure CompletionStats where
  totalCompletions : Nat
  onTimeCompletions : Nat
  lateCompletions : Nat
  averageHoursLate : ℚ
  onTimePercentage : ℚ
  mostCommonLateHours : List Nat
deriving DecidableEq, Repr

/-- `Math.round` for the nonnegative arguments produced by positive
late-hour values: floor of the argument plus one half. -/
def roundNearest (q : ℚ) : Nat :=
  ((q + 1 / 2).floor).toNat

/-- The per-completion analytics list: each completion is paired with the
first task carrying its `taskId`; completions whose task is not found are
dropped (`map` + `filter(Boolean)`). -/
def analyticsOf (tasks : List Task) (completions : List TaskCompletion) :
    List TaskCompletionAnalytics :=
  completions.filterMap fun c =>
    (tasks.find? fun t => t.id == c.taskId).map fun t => analyzeTaskCompletion t c

/-- The truthiness filter `a.wasCompletedLate && a.hoursLate` of the
JavaScript source: late, with an `hoursLate` value that is present and
nonzero. -/
def truthyLate (a : TaskCompletionAnalytics) : Bool :=
  a.wasCompletedLate && !(a.hoursLate.getD 0 == 0)

/-- The list of late-hour values fed into the aggregate statistics. -/
def lateHoursOf (analytics : List TaskCompletionAnalytics) : List ℚ :=
  (analytics.filter truthyLate).filterMap (·.hoursLate)

/-- Insert a key into an ascending duplicate-free key list; models adding a
key to a JavaScript object whose keys are nonnegative integers (such keys
are enumerated in ascending numeric order by `Object.entries`). -/
def insertAscNoDup (k : Nat) : List Nat → List Nat
  | [] => [k]
  | x :: xs =>
      if k < x then k :: x :: xs
      else if k = x then x :: xs
      else x :: insertAscNoDup k xs

/-- The key set of the `hourCounts` object, in the ascending numeric order
`Object.entries` enumerates integer-like keys. -/
def ascKeys (l : List Nat) : List Nat :=
  l.foldl (fun acc k => insertAscNoDup k acc) []

/-- The `Object.entries(hourCounts)` list: each rounded late-hour bucket
paired with its frequency, keys in ascending numeric order. -/
def hourCountEntries (rounded : List Nat) : List (Nat × Nat) :=
  (ascKeys rounded).map fun k => (k, rounded.count k)

/-- Stable insertion for a sort by descending count: an element is placed
before the first element whose count does not exceed its own, so elements
with equal counts keep their relative order (JavaScript `sort` is stable). -/
def insertByCountStable (x : Nat × Nat) : List (Nat × Nat) → List (Nat × Nat)
  | [] => [x]
  | y :: ys => if y.2 ≤ x.2 then x :: y :: ys else y :: insertByCountStable x ys

/-- Stable sort by descending count, as `sort(([, a], [, b]) => b - a)`. -/
def sortByCountStable (l : List (Nat × Nat)) : List (Nat × Nat) :=
  l.foldr insertByCountStable []

/-- The `mostCommonLateHours` pipeline applied to the rounded late hours:
entries in ascending key order, stable sort by descending count, first
three, keys only. -/
def mostCommonOf (rounded : List Nat) : List Nat :=
  ((sortByCountStable (hourCountEntries rounded)).take 3).map (·.1)

/-- Embedding of `analyzeCompletionStats`. -/
def analyzeCompletionStats (tasks : List Task) (completions : List TaskCompletion) :
    CompletionStats :=
  let analytics := analyticsOf tasks completions
  let totalCompletions := analytics.length
  let lateCompletions := (analytics.filter (·.wasCompletedLate)).length
  let onTimeCompletions := totalCompletions - lateCompletions
  let lateHours := lateHoursOf analytics
  let averageHoursLate : ℚ :=
    if 0 < lateHours.length then lateHours.sum / (lateHours.length : ℚ) else 0
  let onTimePercentage : ℚ :=
    if 0 < totalCompletions then
      ((onTimeCompletions : ℚ) / (totalCompletions : ℚ)) * 100
    else 0
  let roundedLateHours := lateHours.map roundNearest
  { totalCompletions := totalCompletions
    onTimeCompletions := onTimeCompletions
    lateCompletions := lateCompletions
    averageHoursLate := averageHoursLate
    onTimePercentage := onTimePercentage
    mostCommonLateHours := mostCommonOf roundedLateHours }

/-- The settings record of `src/services/settingsService.ts`. -/
structure UserSettings where
  recurringTaskGenerationDays : Nat
  theme : String
deriving DecidableEq, Repr

/-- The defaults `DEFAULT_SETTINGS`. -/
def DEFAULT_SETTINGS : UserSettings :=
  { recurringTaskGenerationDays := 30, theme := "system" }

/-- A stored settings JSON object: each field may be absent. -/
structure StoredSettings where
  recurringTaskGenerationDays : Option Nat
  theme : Option String
deriving DecidableEq, Repr

/-- Embedding of `getSettings`: the storage read either fails, returns
nothing stored, or returns a parsed object; a failed or empty read yields
the defaults, and a stored object is spread over the defaults field by
field, with no range validation of any field. -/
def getSettings (read : Except String (Option StoredSettings)) : UserSettings :=
  match read with
  | .error _ => DEFAULT_SETTINGS
  | .ok none => DEFAULT_SETTINGS
  | .ok (some s) =>
      { recurringTaskGenerationDays :=
          s.recurringTaskGenerationDays.getD DEFAULT_SETTINGS.recurringTaskGenerationDays
        theme := s.theme.getD DEFAULT_SETTINGS.theme }

/-- The non-recurring instance record built inside both generation loops of
`src/services/taskService.ts`: the definition fields are copied, the due
date is the loop cursor, and the recurrence metadata is cleared. -/
def mkInstance (title : String) (description : Option String) (type : String)
    (dueTime : Option (Nat × Nat)) (priority : String)
    (categoryId : Option String) (cur : CDate) : TaskInput :=
  { title := title
    description := description
    type := type
    dueDate := cur
    dueTime := dueTime
    isRecurring := false
    recurrencePattern := none
    recurrenceInterval := none
    priority := priority
    categoryId := categoryId }

/-- The instance built from a task-creation record at the loop cursor. -/
def instanceOfInput (task : TaskInput) (cur : CDate) : TaskInput :=
  mkInstance task.title task.description task.type task.dueTime task.priority
    task.categoryId cur

/-- The instance built from a persisted parent task at the loop cursor. -/
def instanceOfTask (parent : Task) (cur : CDate) : TaskInput :=
  mkInstance parent.title parent.description parent.type parent.dueTime
    parent.priority parent.categoryId cur

/-- The generation loop of `createRecurringTaskWithInstances`, returning the
successfully persisted instances in order. The loop runs while the cursor is
at most `endDate` and fewer than 365 instances have been created; `persistOk
idx` tells whether the idx-th `database.createTask` call succeeds, a failed
call being logged and skipped. The `fuel` argument is only an upper bound on
the number of iterations modelled (the claims hold for every fuel). -/
def createLoop (task : TaskInput) (endDate : CDate) (persistOk : Nat → Bool) :
    Nat → CDate → Nat → Nat → List TaskInput
  | 0, _, _, _ => []
  | fuel + 1, cur, count, idx =>
      if dateLe cur endDate && count < 365 then
        let next := getNextRecurrenceDate cur (task.recurrencePattern.getD "")
          task.recurrenceInterval
        if persistOk idx then
          instanceOfInput task cur :: createLoop task endDate persistOk fuel next (count + 1) (idx + 1)
        else
          createLoop task endDate persistOk fuel next count (idx + 1)
      else []

/-- Failure mode of the creation path: no instance could be created. -/
inductive GenError where
  | generationFailed
deriving DecidableEq, Repr

/-- Embedding of `createRecurringTaskWithInstances`: the horizon end is
today plus the configured number of generation days, the cursor starts at
the definition due date, and the call returns the first successfully
created instance, or fails when none succeeded. -/
def createRecurringTaskWithInstances (task : TaskInput) (today : CDate)
    (settings : UserSettings) (persistOk : Nat → Bool) (fuel : Nat) :
    Except GenError TaskInput :=
  let endDate := addDays settings.recurringTaskGenerationDays today
  let created := createLoop task endDate persistOk fuel task.dueDate 0 0
  match created with
  | [] => .error .generationFailed
  | first :: _ => .ok first

/-- The skip-ahead loop of `generateFutureRecurringInstances`: advance the
cursor while it is at most today, for at most `fuel` iterations (the source
caps the loop with the shared 365-instance safety counter). -/
def skipAhead (today : CDate) (pattern : String) (interval : Option Nat) :
    Nat → CDate → CDate
  | 0, cur => cur
  | fuel + 1, cur =>
      if dateLe cur today then
        skipAhead today pattern interval fuel (getNextRecurrenceDate cur pattern interval)
      else cur

/-- The forward generation loop of `generateFutureRecurringInstances`:
collect an instance for every cursor value at most `endDate`, the counter
(here the fuel, incremented every iteration in the source) capped at 365. -/
def futureGenLoop (parent : Task) (endDate : CDate) (pattern : String)
    (interval : Option Nat) : Nat → CDate → List TaskInput
  | 0, _ => []
  | fuel + 1, cur =>
      if dateLe cur endDate then
        instanceOfTask parent cur ::
          futureGenLoop parent endDate pattern interval fuel
            (getNextRecurrenceDate cur pattern interval)
      else []

/-- Embedding of `generateFutureRecurringInstances`: the cursor starts one
recurrence step after the parent due date, is skipped ahead past today for
at most 365 iterations, and the forward loop then collects the instances to
create (each of which is persisted individually, failures skipped). -/
def futureInstances (parent : Task) (today : CDate) (settings : UserSettings) :
    List TaskInput :=
  let pattern := parent.recurrencePattern.getD ""
  let interval := parent.recurrenceInterval
  let endDate := addDays settings.recurringTaskGenerationDays today
  let start := skipAhead today pattern interval 365
    (getNextRecurrenceDate parent.dueDate pattern interval)
  futureGenLoop parent endDate pattern interval 365 start

/-- Embedding of `generateMissingRecurringInstances`: for every persisted
task still flagged recurring that has no instance dated tomorrow matching
it by title and type, regenerate the forward window; the result pairs each
such task with the instances the regeneration builds. `tasksOnDate` stands
for the `getTasks(date)` query of the persistence layer. -/
def generateMissingRecurringInstances (allTasks : List Task)
    (tasksOnDate : CDate → List Task) (today : CDate) (settings : UserSettings) :
    List (Task × List TaskInput) :=
  ((allTasks.filter (·.isRecurring)).filter fun rt =>
      !((tasksOnDate (addDays 1 today)).any fun t =>
        t.title == rt.title && t.type == rt.type && !t.isRecurring)).map
    fun rt => (rt, futureInstances rt today settings)

/-- The walk of `calculateStreak`: `tasksOn` and `completionsOn` give the
number of tasks due and completions recorded on a day (days as linear day
numbers, today minus the loop index). A day with no tasks is skipped, a
fully completed day increments the streak, any other day stops the walk. -/
def streakGo (tasksOn completionsOn : Int → Nat) (today : Int) :
    Nat → Int → Nat → Nat
  | 0, _, streak => streak
  | fuel + 1, i, streak =>
      let d := today - i
      if tasksOn d = 0 then streakGo tasksOn completionsOn today fuel (i + 1) streak
      else if completionsOn d = tasksOn d then
        streakGo tasksOn completionsOn today fuel (i + 1) (streak + 1)
      else streak

/-- Embedding of `calculateStreak`: walk backward from today for at most
365 days. -/
def calculateStreak (tasksOn completionsOn : Int → Nat) (today : Int) : Nat :=
  streakGo tasksOn completionsOn today 365 0 0

/-- A row of the `task_completions` table of the `DatabaseService`, as
inserted by `database.completeTask` and read back by `getCompletions`:
identifier, task reference, `completed_at` timestamp (an ISO string in the
source, modelled as milliseconds on the same scale as the analytics
engine) and optional notes. -/
structure DBCompletion where
  id : String
  taskId : String
  completedAt : Int
  notes : Option String
deriving DecidableEq, Repr

/-- The persistence state visible to `completeTask`: the `tasks` and
`task_completions` tables of the `DatabaseService`. -/
structure DBState where
  tasks : List Task
  completions : List DBCompletion
deriving DecidableEq, Repr

/-- The calendar day of a millisecond timestamp: the `date(...)` SQL
projection applied to the stored ISO timestamp. -/
def msDay (t : Int) : Int :=
  t.fdiv msPerDay

/-- JavaScript `notes || null`: absent or empty notes are stored as null. -/
def jsOrNull (notes : Option String) : Option String :=
  match notes with
  | some s => if s = "" then none else some s
  | none => none

/-- Embedding of `database.isTaskCompletedToday`: count the rows of
`task_completions` for that task whose `completed_at` falls on the current
calendar day, and test the count positive. -/
def isTaskCompletedToday (st : DBState) (taskId : String) (now : Int) : Bool :=
  decide (0 < st.completions.countP fun c =>
    c.taskId == taskId && msDay c.completedAt == msDay now)

/-- Embedding of `database.completeTask`: insert exactly one row into
`task_completions` carrying a fresh identifier (derived from the clock in
the source, passed in here), the task reference, the current timestamp and
the notes or null, returning the created record. -/
def dbCompleteTask (st : DBState) (id taskId : String) (notes : Option String)
    (now : Int) : DBState × DBCompletion :=
  let row : DBCompletion :=
    { id := id, taskId := taskId, completedAt := now, notes := jsOrNull notes }
  ({ st with completions := st.completions ++ [row] }, row)

/-- `getTaskById`: first task in the table with the given id (the service
loads `getTasks()` and takes the first match). -/
def getTaskById (st : DBState) (taskId : String) : Option Task :=
  st.tasks.find? fun t => t.id == taskId

/-- The two failure modes of the orchestration-level `completeTask`. -/
inductive CompleteError where
  | notFound
  | alreadyCompleted
deriving DecidableEq, Repr

/-- Embedding of `taskService.completeTask`: fail when the task is missing,
fail with the distinguished duplicate condition when the task is already
completed today, and otherwise record exactly one completion. -/
def completeTask (st : DBState) (taskId : String) (notes : Option String)
    (id : String) (now : Int) : Except CompleteError DBState :=
  match getTaskById st taskId with
  | none => .error .notFound
  | some _ =>
      if isTaskCompletedToday st taskId now then .error .alreadyCompleted
      else .ok (dbCompleteTask st id taskId notes now).1

/-! ### Calendar arithmetic lemmas -/

theorem daysInMonth_le (y m : Nat) : daysInMonth y m ≤ 31 := by
  unfold daysInMonth
  split <;> first | omega | (split <;> omega)

theorem daysInMonth_ge (y m : Nat) : 28 ≤ daysInMonth y m := by
  unfold daysInMonth
  split <;> first | omega | (split <;> omega)

theorem isLeapYear_iff (y : Nat) :
    isLeapYear y = true ↔ ((y % 4 = 0 ∧ ¬y % 100 = 0) ∨ y % 400 = 0) := by
  simp [isLeapYear]

theorem daysBeforeYear_succ (y : Nat) :
    daysBeforeYear (y + 1) = daysBeforeYear y + (if isLeapYear y then 366 else 365) := by
  by_cases hl : (y % 4 = 0 ∧ ¬y % 100 = 0) ∨ y % 400 = 0
  · rw [if_pos ((isLeapYear_iff y).mpr hl)]
    simp only [daysBeforeYear]
    omega
  · rw [if_neg (fun hh => hl ((isLeapYear_iff y).mp hh))]
    simp only [daysBeforeYear]
    omega

theorem daysBeforeMonth_twelve (y : Nat) :
    daysBeforeMonth y 12 = if isLeapYear y then 366 else 365 := by
  cases hy : isLeapYear y <;> simp [daysBeforeMonth, daysInMonth, hy]

theorem daysBeforeYear_succ_alt (y : Nat) :
    daysBeforeYear (y + 1) = daysBeforeYear y + daysBeforeMonth y 12 := by
  rw [daysBeforeYear_succ, daysBeforeMonth_twelve]

theorem toRata_rollDay (y m d : Nat) :
    toRata (rollDay y m d) = daysBeforeYear y + daysBeforeMonth y m + d := by
  unfold rollDay
  by_cases h1 : d ≤ daysInMonth y m
  · rw [if_pos h1]
    rfl
  · rw [if_neg h1]
    by_cases h2 : m = 11
    · subst h2
      rw [if_pos rfl]
      show daysBeforeYear (y + 1) + daysBeforeMonth (y + 1) 0 + (d - daysInMonth y 11) =
        daysBeforeYear y + daysBeforeMonth y 11 + d
      have key := daysBeforeYear_succ_alt y
      have h12 : daysBeforeMonth y 12 = daysBeforeMonth y 11 + daysInMonth y 11 := rfl
      have h31 : daysInMonth y 11 = 31 := rfl
      have hBM0 : daysBeforeMonth (y + 1) 0 = 0 := rfl
      omega
    · rw [if_neg h2]
      show daysBeforeYear y + daysBeforeMonth y (m + 1) + (d - daysInMonth y m) =
        daysBeforeYear y + daysBeforeMonth y m + d
      have hstep : daysBeforeMonth y (m + 1) = daysBeforeMonth y m + daysInMonth y m := rfl
      omega

theorem rollDay_valid (y m d : Nat) (hm : m < 12) (h1 : 1 ≤ d) (h32 : d ≤ 32) :
    ValidDate (rollDay y m d) := by
  unfold rollDay
  by_cases hle : d ≤ daysInMonth y m
  · rw [if_pos hle]
    exact ⟨hm, h1, hle⟩
  · rw [if_neg hle]
    have hge := daysInMonth_ge y m
    have hle31 := daysInMonth_le y m
    by_cases h2 : m = 11
    · subst h2
      rw [if_pos rfl]
      have h31 : daysInMonth y 11 = 31 := rfl
      have h0 : daysInMonth (y + 1) 0 = 31 := rfl
      exact ⟨show (0 : Nat) < 12 by omega, show 1 ≤ d - daysInMonth y 11 by omega,
        show d - daysInMonth y 11 ≤ daysInMonth (y + 1) 0 by omega⟩
    · rw [if_neg h2]
      have hge2 := daysInMonth_ge y (m + 1)
      exact ⟨show m + 1 < 12 by omega, show 1 ≤ d - daysInMonth y m by omega,
        show d - daysInMonth y m ≤ daysInMonth y (m + 1) by omega⟩

theorem toRata_addDays1 (dt : CDate) : toRata (addDays1 dt) = toRata dt + 1 := by
  unfold addDays1
  rw [toRata_rollDay dt.year dt.month (dt.day + 1)]
  show _ = daysBeforeYear dt.year + daysBeforeMonth dt.year dt.month + dt.day + 1
  omega

theorem toRata_addDays (n : Nat) (dt : CDate) :
    toRata (addDays n dt) = toRata dt + n := by
  induction n generalizing dt with
  | zero => simp [addDays]
  | succ k ih =>
      unfold addDays at ih ⊢
      rw [Function.iterate_succ_apply, ih, toRata_addDays1]
      omega

theorem valid_addDays1 (dt : CDate) (h : ValidDate dt) : ValidDate (addDays1 dt) := by
  obtain ⟨hm, h1, hle⟩ := h
  have := daysInMonth_le dt.year dt.month
  exact rollDay_valid dt.year dt.month (dt.day + 1) hm (by omega) (by omega)

theorem valid_addDays (n : Nat) (dt : CDate) (h : ValidDate dt) :
    ValidDate (addDays n dt) := by
  induction n generalizing dt with
  | zero => simpa [addDays] using h
  | succ k ih =>
      unfold addDays at ih ⊢
      rw [Function.iterate_succ_apply]
      exact ih (addDays1 dt) (valid_addDays1 dt h)

/-- The linear month index view of the year carry used by `addMonths`: the
rata-die number of the first day of month `t` (counted linearly from
January of year `y`). -/
def monthStart (y t : Nat) : Nat :=
  daysBeforeYear (y + t / 12) + daysBeforeMonth (y + t / 12) (t % 12)

theorem monthStart_step (y t : Nat) :
    monthStart y (t + 1) = monthStart y t + daysInMonth (y + t / 12) (t % 12) := by
  unfold monthStart
  by_cases h : t % 12 = 11
  · have hdiv : (t + 1) / 12 = t / 12 + 1 := by omega
    have hmod : (t + 1) % 12 = 0 := by omega
    rw [hdiv, hmod, h, ← Nat.add_assoc y (t / 12) 1]
    have hBM0 : daysBeforeMonth (y + t / 12 + 1) 0 = 0 := rfl
    have key := daysBeforeYear_succ_alt (y + t / 12)
    have h12 : daysBeforeMonth (y + t / 12) 12 =
        daysBeforeMonth (y + t / 12) 11 + daysInMonth (y + t / 12) 11 := rfl
    omega
  · have hdiv : (t + 1) / 12 = t / 12 := by omega
    have hmod : (t + 1) % 12 = t % 12 + 1 := by omega
    rw [hdiv, hmod]
    have hstep : daysBeforeMonth (y + t / 12) (t % 12 + 1) =
        daysBeforeMonth (y + t / 12) (t % 12) + daysInMonth (y + t / 12) (t % 12) := rfl
    omega

theorem monthStart_add_ge (y t k : Nat) :
    monthStart y t + 28 * k ≤ monthStart y (t + k) := by
  induction k with
  | zero => simp
  | succ j ih =>
      have hstep := monthStart_step y (t + j)
      have hge := daysInMonth_ge (y + (t + j) / 12) ((t + j) % 12)
      have : t + (j + 1) = (t + j) + 1 := by omega
      rw [this]
      omega

theorem toRata_addMonths (k : Nat) (dt : CDate) :
    toRata (addMonths k dt) = monthStart dt.year (dt.month + k) + dt.day := by
  unfold addMonths monthStart
  rw [toRata_rollDay]

theorem toRata_monthStart (dt : CDate) (hm : dt.month < 12) :
    toRata dt = monthStart dt.year dt.month + dt.day := by
  unfold toRata monthStart
  have hdiv : dt.month / 12 = 0 := by omega
  have hmod : dt.month % 12 = dt.month := by omega
  rw [hdiv, hmod, Nat.add_zero]

theorem toRata_addMonths_ge (k : Nat) (dt : CDate) (hm : dt.month < 12) :
    toRata dt + 28 * k ≤ toRata (addMonths k dt) := by
  rw [toRata_addMonths, toRata_monthStart dt hm]
  have := monthStart_add_ge dt.year dt.month k
  omega

theorem valid_addMonths (k : Nat) (dt : CDate) (h : ValidDate dt) :
    ValidDate (addMonths k dt) := by
  obtain ⟨hm, h1, hle⟩ := h
  have h31 := daysInMonth_le dt.year dt.month
  exact rollDay_valid _ _ _ (by omega) (by omega) (by omega)

theorem daysBeforeYear_add_ge (y k : Nat) :
    daysBeforeYear y + 365 * k ≤ daysBeforeYear (y + k) := by
  induction k with
  | zero => simp
  | succ j ih =>
      have hstep := daysBeforeYear_succ (y + j)
      have : y + (j + 1) = (y + j) + 1 := by omega
      rw [this]
      split at hstep <;> omega

theorem daysBeforeMonth_close (y z m : Nat) (hm : m ≤ 12) :
    daysBeforeMonth y m ≤ daysBeforeMonth z m + 1 := by
  interval_cases m <;>
    cases hy : isLeapYear y <;> cases hz : isLeapYear z <;>
      simp [daysBeforeMonth, daysInMonth, hy, hz]

theorem toRata_addYears_ge (k : Nat) (dt : CDate) (hm : dt.month < 12) (hk : 1 ≤ k) :
    toRata dt + 364 ≤ toRata (addYears k dt) := by
  unfold addYears
  rw [toRata_rollDay]
  have h1 := daysBeforeYear_add_ge dt.year k
  have h2 := daysBeforeMonth_close dt.year (dt.year + k) dt.month (by omega)
  unfold toRata
  omega

theorem valid_addYears (k : Nat) (dt : CDate) (h : ValidDate dt) :
    ValidDate (addYears k dt) := by
  obtain ⟨hm, h1, hle⟩ := h
  have h31 := daysInMonth_le dt.year dt.month
  exact rollDay_valid _ _ _ hm (by omega) (by omega)

theorem addDays_addDays (a b : Nat) (dt : CDate) :
    addDays a (addDays b dt) = addDays (a + b) dt := by
  unfold addDays
  rw [Function.iterate_add_apply]

/-- A recurrence rule strictly advances the date exactly when its pattern is
one of the six calendar patterns, or it is `custom` with a truthy interval. -/
def Advancing (pattern : String) (interval : Option Nat) : Prop :=
  pattern = "daily" ∨ pattern = "weekly" ∨ pattern = "biweekly" ∨
    pattern = "monthly" ∨ pattern = "quarterly" ∨ pattern = "annually" ∨
    (pattern = "custom" ∧ ∃ n, interval = some n ∧ 1 ≤ n)

theorem nextRecurrence_advances (dt : CDate) (p : String) (i : Option Nat)
    (hadv : Advancing p i) (hv : ValidDate dt) :
    toRata dt + 1 ≤ toRata (getNextRecurrenceDate dt p i) ∧
      ValidDate (getNextRecurrenceDate dt p i) := by
  have hm : dt.month < 12 := hv.1
  rcases hadv with h | h | h | h | h | h | ⟨h, n, hn, hn1⟩ <;> subst h
  · exact ⟨by rw [show getNextRecurrenceDate dt "daily" i = addDays 1 dt from rfl,
      toRata_addDays], valid_addDays 1 dt hv⟩
  · exact ⟨by rw [show getNextRecurrenceDate dt "weekly" i = addDays 7 dt from rfl,
      toRata_addDays]; omega, valid_addDays 7 dt hv⟩
  · exact ⟨by rw [show getNextRecurrenceDate dt "biweekly" i = addDays 14 dt from rfl,
      toRata_addDays]; omega, valid_addDays 14 dt hv⟩
  · refine ⟨?_, valid_addMonths 1 dt hv⟩
    rw [show getNextRecurrenceDate dt "monthly" i = addMonths 1 dt from rfl]
    have := toRata_addMonths_ge 1 dt hm
    omega
  · refine ⟨?_, valid_addMonths 3 dt hv⟩
    rw [show getNextRecurrenceDate dt "quarterly" i = addMonths 3 dt from rfl]
    have := toRata_addMonths_ge 3 dt hm
    omega
  · refine ⟨?_, valid_addYears 1 dt hv⟩
    rw [show getNextRecurrenceDate dt "annually" i = addYears 1 dt from rfl]
    have := toRata_addYears_ge 1 dt hm (by omega)
    omega
  · subst hn
    have hne : ¬n = 0 := by omega
    rw [show getNextRecurrenceDate dt "custom" (some n) =
      if n = 0 then dt else addDays n dt from rfl, if_neg hne]
    exact ⟨by rw [toRata_addDays]; omega, valid_addDays n dt hv⟩

theorem addYears_one_one (dt : CDate) (hv : ValidDate dt) :
    addYears 1 (addYears 1 dt) = addYears 2 dt := by
  obtain ⟨y, m, d⟩ := dt
  obtain ⟨hm, h1, hle⟩ := hv
  dsimp only at hm h1 hle
  by_cases hca : d ≤ daysInMonth (y + 1) m
  · have e1 : addYears 1 (⟨y, m, d⟩ : CDate) = ⟨y + 1, m, d⟩ := by
      unfold addYears rollDay
      rw [if_pos hca]
    rw [e1]
    show rollDay (y + 1 + 1) m d = rollDay (y + 2) m d
    rw [show y + 1 + 1 = y + 2 from by omega]
  · have hminus : daysInMonth (y + 1) m < d := by omega
    have hm1 : m = 1 := by
      interval_cases m <;> first
        | rfl
        | (simp only [daysInMonth] at hminus hle; omega)
    subst hm1
    have hly : isLeapYear y = true := by
      cases hy : isLeapYear y with
      | true => rfl
      | false =>
          have e28 : daysInMonth y 1 = 28 := by simp [daysInMonth, hy]
          have h28 := daysInMonth_ge (y + 1) 1
          omega
    have hd29 : d = 29 := by
      have e29 : daysInMonth y 1 = 29 := by simp [daysInMonth, hly]
      have h28 := daysInMonth_ge (y + 1) 1
      omega
    have y4 : y % 4 = 0 := by
      rcases (isLeapYear_iff y).mp hly with ⟨h4, _⟩ | h400 <;> omega
    have hlp1 : isLeapYear (y + 1) = false := by
      cases hy1 : isLeapYear (y + 1) with
      | false => rfl
      | true => exact absurd ((isLeapYear_iff _).mp hy1) (by omega)
    have hlp2 : isLeapYear (y + 2) = false := by
      cases hy2 : isLeapYear (y + 2) with
      | false => rfl
      | true => exact absurd ((isLeapYear_iff _).mp hy2) (by omega)
    subst hd29
    have dA : daysInMonth (y + 1) 1 = 28 := by simp [daysInMonth, hlp1]
    have dB : daysInMonth (y + 2) 1 = 28 := by simp [daysInMonth, hlp2]
    have eL1 : rollDay (y + 1) 1 29 = ⟨y + 1, 2, 1⟩ := by
      unfold rollDay
      rw [dA]
      norm_num
    have eL2 : addYears 1 (⟨y + 1, 2, 1⟩ : CDate) = ⟨y + 2, 2, 1⟩ := by
      show rollDay (y + 1 + 1) 2 1 = _
      unfold rollDay
      rw [show y + 1 + 1 = y + 2 from by omega]
      norm_num [daysInMonth]
    have eR : rollDay (y + 2) 1 29 = ⟨y + 2, 2, 1⟩ := by
      unfold rollDay
      rw [dB]
      norm_num
    show addYears 1 (rollDay (y + 1) 1 29) = rollDay (y + 2) 1 29
    rw [eL1, eL2, eR]

/-! ### Claim theorems for the recurrence rule engine -/

/-- C9: `getNextRecurrenceDate` is an identity in the degenerate cases — a
`custom` pattern without an interval returns the input date, and any
unrecognized pattern value falls through the switch and returns the input
date; the function is a pure total function. -/
theorem claim_C9_degenerate_identity (d : CDate) (p : String) (i : Option Nat)
    (hp : p ∉ ["daily", "weekly", "biweekly", "monthly", "quarterly", "annually",
      "custom"]) :
    getNextRecurrenceDate d "custom" none = d ∧ getNextRecurrenceDate d p i = d := by
  refine ⟨rfl, ?_⟩
  simp only [List.mem_cons, List.not_mem_nil, or_false, not_or] at hp
  unfold getNextRecurrenceDate
  split <;> simp_all

/-- Witness for C9 at a concrete unrecognized pattern value. -/
theorem claim_C9_degenerate_identity_witness :
    getNextRecurrenceDate ⟨2024, 0, 2⟩ "custom" none = ⟨2024, 0, 2⟩ ∧
      getNextRecurrenceDate ⟨2024, 0, 2⟩ "bogus" (some 5) = ⟨2024, 0, 2⟩ :=
  claim_C9_degenerate_identity ⟨2024, 0, 2⟩ "bogus" (some 5) (by decide)

/-- C8 fails as stated on the calendar-month patterns: starting from
Jan 31 2023, two monthly steps land on Apr 3 while two calendar months
ahead is Mar 31, and two quarterly steps land on Aug 1 while six calendar
months ahead is Jul 31. -/
theorem claim_C8_counterexample :
    getNextRecurrenceDate (getNextRecurrenceDate ⟨2023, 0, 31⟩ "monthly" none)
        "monthly" none ≠ addMonths 2 ⟨2023, 0, 31⟩ ∧
      getNextRecurrenceDate (getNextRecurrenceDate ⟨2023, 0, 31⟩ "quarterly" none)
        "quarterly" none ≠ addMonths 6 ⟨2023, 0, 31⟩ := by
  decide

/-- C8 (amended): the twice-equals-double-step law holds for the day-based
patterns daily (+2 days), weekly (+14 days) and biweekly (+28 days) on
every date, and for annually (+2 calendar years) on every valid calendar
date; it fails for monthly and quarterly on month-end overflow dates. -/
theorem claim_C8_twice_single_step (d : CDate) (hv : ValidDate d) :
    getNextRecurrenceDate (getNextRecurrenceDate d "daily" none) "daily" none =
        addDays 2 d ∧
      getNextRecurrenceDate (getNextRecurrenceDate d "weekly" none) "weekly" none =
        addDays 14 d ∧
      getNextRecurrenceDate (getNextRecurrenceDate d "biweekly" none) "biweekly" none =
        addDays 28 d ∧
      getNextRecurrenceDate (getNextRecurrenceDate d "annually" none) "annually" none =
        addYears 2 d := by
  refine ⟨?_, ?_, ?_, ?_⟩
  · show addDays 1 (addDays 1 d) = addDays 2 d
    rw [addDays_addDays]
  · show addDays 7 (addDays 7 d) = addDays 14 d
    rw [addDays_addDays]
  · show addDays 14 (addDays 14 d) = addDays 28 d
    rw [addDays_addDays]
  · show addYears 1 (addYears 1 d) = addYears 2 d
    exact addYears_one_one d hv

/-- Witness for the amended C8 at Jan 31 2024. -/
theorem claim_C8_twice_single_step_witness :
    ValidDate ⟨2024, 0, 31⟩ ∧
      (getNextRecurrenceDate (getNextRecurrenceDate ⟨2024, 0, 31⟩ "daily" none)
          "daily" none = addDays 2 ⟨2024, 0, 31⟩ ∧
        getNextRecurrenceDate (getNextRecurrenceDate ⟨2024, 0, 31⟩ "weekly" none)
          "weekly" none = addDays 14 ⟨2024, 0, 31⟩ ∧
        getNextRecurrenceDate (getNextRecurrenceDate ⟨2024, 0, 31⟩ "biweekly" none)
          "biweekly" none = addDays 28 ⟨2024, 0, 31⟩ ∧
        getNextRecurrenceDate (getNextRecurrenceDate ⟨2024, 0, 31⟩ "annually" none)
          "annually" none = addYears 2 ⟨2024, 0, 31⟩) :=
  ⟨by decide, claim_C8_twice_single_step ⟨2024, 0, 31⟩ (by decide)⟩

/-! ### Claim theorems for the completion analytics engine -/

/-- The due instant as the specification words it: the due date plus the due
time when a due time is present, otherwise 23:59:59.999 on the due date. -/
def dueInstant (task : Task) : Int :=
  match task.dueTime with
  | some (h, mi) => dayStartMs task.dueDate + (h : Int) * msPerHour + (mi : Int) * 60000
  | none => dayStartMs task.dueDate + (msPerDay - 1)

theorem codeDueDateTime_eq_dueInstant (task : Task) :
    codeDueDateTime task = dueInstant task := by
  unfold codeDueDateTime dueInstant
  cases task.dueTime with
  | none =>
      simp only [msPerDay, msPerHour]
      omega
  | some p => rfl

/-- C1: `analyzeTaskCompletion` reports a late completion exactly when the
completion timestamp is strictly after the due instant (due date plus due
time, else end of day 23:59:59.999); when late, `hoursLate` is the
millisecond gap divided by 3600000 and `daysLate` is the floor of
`hoursLate / 24`; when not late, both are absent. -/
theorem claim_C1_lateness_analysis (task : Task) (completion : TaskCompletion) :
    ((analyzeTaskCompletion task completion).wasCompletedLate = true ↔
        dueInstant task < completion.completedAt) ∧
      (dueInstant task < completion.completedAt →
        (analyzeTaskCompletion task completion).hoursLate =
            some (((completion.completedAt - dueInstant task : Int) : ℚ) / 3600000) ∧
          (analyzeTaskCompletion task completion).daysLate =
            some ((((completion.completedAt - dueInstant task : Int) : ℚ) / 3600000) / 24).floor) ∧
      (¬dueInstant task < completion.completedAt →
        (analyzeTaskCompletion task completion).hoursLate = none ∧
          (analyzeTaskCompletion task completion).daysLate = none) := by
  unfold analyzeTaskCompletion
  rw [codeDueDateTime_eq_dueInstant]
  by_cases h : dueInstant task < completion.completedAt
  · rw [if_pos h]
    refine ⟨by simp [h], fun _ => ⟨?_, ?_⟩, fun hc => absurd h hc⟩ <;> norm_num
  · rw [if_neg h]
    exact ⟨by simp [h], fun hc => absurd hc h, fun _ => ⟨rfl, rfl⟩⟩

/-- Concrete task for the C1 witness: due Jan 1 2024 at 09:00. -/
def w1Task : Task :=
  { id := "t1", title := "dentist", description := none, type := "appointment",
    dueDate := ⟨2024, 0, 1⟩, dueTime := some (9, 0), isRecurring := false,
    recurrencePattern := none, recurrenceInterval := none, priority := "medium",
    categoryId := none }

/-- Concrete completion for the C1 witness: 2.5 hours after the due time. -/
def w1Completion : TaskCompletion :=
  { id := "c1", taskId := "t1",
    completedAt := dayStartMs ⟨2024, 0, 1⟩ + 9 * msPerHour + 9000000, notes := none }

/-- Witness for C1 on a concrete late completion. -/
theorem claim_C1_lateness_analysis_witness :
    dueInstant w1Task < w1Completion.completedAt ∧
      ((analyzeTaskCompletion w1Task w1Completion).hoursLate =
          some (((w1Completion.completedAt - dueInstant w1Task : Int) : ℚ) / 3600000) ∧
        (analyzeTaskCompletion w1Task w1Completion).daysLate =
          some ((((w1Completion.completedAt - dueInstant w1Task : Int) : ℚ) / 3600000) / 24).floor) :=
  ⟨by decide, (claim_C1_lateness_analysis w1Task w1Completion).2.1 (by decide)⟩

/-! ### Claim theorems for the reconciliation sweep -/

theorem skipAhead_gt (today : CDate) (p : String) (i : Option Nat)
    (hadv : Advancing p i) : ∀ fuel cur, ValidDate cur →
    toRata today < toRata cur + fuel →
    toRata today < toRata (skipAhead today p i fuel cur) ∧
      ValidDate (skipAhead today p i fuel cur) ∧
      toRata cur ≤ toRata (skipAhead today p i fuel cur) := by
  intro fuel
  induction fuel with
  | zero =>
      intro cur hv hlt
      simp only [skipAhead]
      exact ⟨by omega, hv, Nat.le_refl _⟩
  | succ f ih =>
      intro cur hv hlt
      simp only [skipAhead]
      split
      · rename_i hle
        have hle2 : toRata cur ≤ toRata today := by
          simpa [dateLe] using hle
        obtain ⟨hadv1, hadv2⟩ := nextRecurrence_advances cur p i hadv hv
        have hrec := ih (getNextRecurrenceDate cur p i) hadv2 (by omega)
        exact ⟨hrec.1, hrec.2.1, Nat.le_trans (by omega) hrec.2.2⟩
      · rename_i hgt
        have hgt2 : ¬toRata cur ≤ toRata today := by
          simpa [dateLe] using hgt
        exact ⟨by omega, hv, Nat.le_refl _⟩

theorem futureGenLoop_dates (parent : Task) (endDate : CDate) (p : String)
    (i : Option Nat) (hadv : Advancing p i) : ∀ fuel cur, ValidDate cur →
    ∀ inst ∈ futureGenLoop parent endDate p i fuel cur,
      toRata cur ≤ toRata inst.dueDate := by
  intro fuel
  induction fuel with
  | zero =>
      intro cur hv inst h
      simp [futureGenLoop] at h
  | succ f ih =>
      intro cur hv inst h
      simp only [futureGenLoop] at h
      split at h
      · rcases List.mem_cons.mp h with h1 | h1
        · subst h1
          exact Nat.le_refl _
        · obtain ⟨ha1, ha2⟩ := nextRecurrence_advances cur p i hadv hv
          have := ih (getNextRecurrenceDate cur p i) ha2 inst h1
          omega
      · simp at h

/-- Core of the amended C7: under an advancing rule and a due date at most
365 days past, every regenerated instance is strictly after today and off
the original due date. -/
theorem futureInstances_dates (parent : Task) (today : CDate) (settings : UserSettings)
    (hv : ValidDate parent.dueDate)
    (hadv : Advancing (parent.recurrencePattern.getD "") parent.recurrenceInterval)
    (hnear : toRata today ≤ toRata parent.dueDate + 365) :
    ∀ inst ∈ futureInstances parent today settings,
      toRata today < toRata inst.dueDate ∧ inst.dueDate ≠ parent.dueDate := by
  intro inst hin
  simp only [futureInstances] at hin
  obtain ⟨hst1, hst2⟩ := nextRecurrence_advances parent.dueDate
    (parent.recurrencePattern.getD "") parent.recurrenceInterval hadv hv
  have hskip := skipAhead_gt today (parent.recurrencePattern.getD "")
    parent.recurrenceInterval hadv 365
    (getNextRecurrenceDate parent.dueDate (parent.recurrencePattern.getD "")
      parent.recurrenceInterval)
    hst2 (by omega)
  have hdates := futureGenLoop_dates parent
    (addDays settings.recurringTaskGenerationDays today)
    (parent.recurrencePattern.getD "") parent.recurrenceInterval hadv 365 _
    hskip.2.1 inst hin
  refine ⟨by omega, fun hEq => ?_⟩
  have hcontra : toRata inst.dueDate = toRata parent.dueDate := by rw [hEq]
  omega

/-- C7 (amended): for every recurring task the startup sweep decides to
regenerate, provided its recurrence rule strictly advances the date (a
non-custom pattern, or custom with a nonzero interval) and its original due
date lies no more than 365 days before today, every regenerated instance is
dated strictly after today and none falls on the original due date; without
those provisos the 365-iteration cap of the skip-ahead loop can leave the
cursor at or before today. -/
theorem claim_C7_amended (allTasks : List Task) (tasksOnDate : CDate → List Task)
    (today : CDate) (settings : UserSettings) (parent : Task) (insts : List TaskInput)
    (hmem : (parent, insts) ∈
      generateMissingRecurringInstances allTasks tasksOnDate today settings)
    (hv : ValidDate parent.dueDate)
    (hadv : Advancing (parent.recurrencePattern.getD "") parent.recurrenceInterval)
    (hnear : toRata today ≤ toRata parent.dueDate + 365) :
    ∀ inst ∈ insts, toRata today < toRata inst.dueDate ∧
      inst.dueDate ≠ parent.dueDate := by
  obtain ⟨rt, hrt, heq⟩ := List.mem_map.mp hmem
  obtain ⟨h1, h2⟩ := (Prod.mk.injEq _ _ _ _).mp heq
  subst h1
  subst h2
  exact futureInstances_dates _ today settings hv hadv hnear

theorem skipAhead_custom_none (today : CDate) : ∀ fuel cur,
    skipAhead today "custom" none fuel cur = cur := by
  intro fuel
  induction fuel with
  | zero =>
      intro cur
      rfl
  | succ f ih =>
      intro cur
      simp only [skipAhead]
      split
      · exact ih cur
      · rfl

theorem futureGenLoop_cons (parent : Task) (endDate : CDate) (pattern : String)
    (interval : Option Nat) (f : Nat) (cur : CDate)
    (h : dateLe cur endDate = true) :
    futureGenLoop parent endDate pattern interval (f + 1) cur =
      instanceOfTask parent cur ::
        futureGenLoop parent endDate pattern interval f
          (getNextRecurrenceDate cur pattern interval) := by
  simp only [futureGenLoop, h, if_true]

/-- The C7 counterexample parent: a persisted recurring task with a custom
pattern and no interval, due today. -/
def cx7Parent : Task :=
  { id := "r1", title := "report", description := none, type := "task",
    dueDate := ⟨2024, 0, 15⟩, dueTime := none, isRecurring := true,
    recurrencePattern := some "custom", recurrenceInterval := none,
    priority := "low", categoryId := none }

/-- Today for the C7 counterexample. -/
def cx7Today : CDate := ⟨2024, 0, 15⟩

/-- Settings for the C7 counterexample. -/
def cx7Settings : UserSettings := { recurringTaskGenerationDays := 30, theme := "system" }

set_option maxRecDepth 4000 in
/-- C7 is false as stated: the sweep decides to regenerate `cx7Parent` (it
is flagged recurring and no matching instance exists tomorrow), yet the
regeneration materializes an instance dated exactly on the original due
date, which is today — not strictly after today. The non-advancing custom
rule keeps the skip-ahead loop stationary until its 365-iteration safety
cap expires. -/
theorem claim_C7_counterexample :
    (cx7Parent, futureInstances cx7Parent cx7Today cx7Settings) ∈
        generateMissingRecurringInstances [cx7Parent] (fun _ => []) cx7Today cx7Settings ∧
      instanceOfTask cx7Parent cx7Parent.dueDate ∈
        futureInstances cx7Parent cx7Today cx7Settings ∧
      (instanceOfTask cx7Parent cx7Parent.dueDate).dueDate = cx7Parent.dueDate ∧
      ¬toRata cx7Today < toRata (instanceOfTask cx7Parent cx7Parent.dueDate).dueDate := by
  refine ⟨List.mem_singleton.mpr rfl, ?_, rfl, by decide⟩
  show instanceOfTask cx7Parent cx7Parent.dueDate ∈
    futureGenLoop cx7Parent (addDays 30 cx7Today) "custom" none 365
      (skipAhead cx7Today "custom" none 365
        (getNextRecurrenceDate cx7Parent.dueDate "custom" none))
  rw [skipAhead_custom_none]
  rw [show getNextRecurrenceDate cx7Parent.dueDate "custom" none = cx7Parent.dueDate
    from rfl]
  rw [show (365 : Nat) = 364 + 1 from rfl]
  rw [futureGenLoop_cons cx7Parent (addDays 30 cx7Today) "custom" none 364
    cx7Parent.dueDate (by decide)]
  exact List.mem_cons_self _ _

/-- The C7 witness parent: a daily recurring task due five days ago. -/
def w7Parent : Task :=
  { id := "r2", title := "journal", description := none, type := "task",
    dueDate := ⟨2024, 0, 10⟩, dueTime := none, isRecurring := true,
    recurrencePattern := some "daily", recurrenceInterval := none,
    priority := "low", categoryId := none }

/-- Today for the C7 witness. -/
def w7Today : CDate := ⟨2024, 0, 15⟩

/-- Settings for the C7 witness: a three-day horizon. -/
def w7Settings : UserSettings := { recurringTaskGenerationDays := 3, theme := "system" }

set_option maxRecDepth 4000 in
/-- Witness for the amended C7: the regenerated instance dated Jan 16 2024
is strictly after today (Jan 15) and off the original due date (Jan 10). -/
theorem claim_C7_amended_witness :
    instanceOfTask w7Parent ⟨2024, 0, 16⟩ ∈ futureInstances w7Parent w7Today w7Settings ∧
      (toRata w7Today < toRata (instanceOfTask w7Parent ⟨2024, 0, 16⟩).dueDate ∧
        (instanceOfTask w7Parent ⟨2024, 0, 16⟩).dueDate ≠ w7Parent.dueDate) :=
  ⟨by decide,
    claim_C7_amended [w7Parent] (fun _ => []) w7Today w7Settings w7Parent
      (futureInstances w7Parent w7Today w7Settings)
      (List.mem_singleton.mpr rfl) (by decide) (Or.inl rfl) (by decide)
      (instanceOfTask w7Parent ⟨2024, 0, 16⟩) (by decide)⟩

/-! ### Claim theorems for the streak walk -/

theorem streakGo_le (tasksOn completionsOn : Int → Nat) (today : Int) :
    ∀ fuel i s, streakGo tasksOn completionsOn today fuel i s ≤ s + fuel := by
  intro fuel
  induction fuel with
  | zero =>
      intro i s
      simp [streakGo]
  | succ f ih =>
      intro i s
      simp only [streakGo]
      split
      · exact le_trans (ih (i + 1) s) (by omega)
      · split
        · exact le_trans (ih (i + 1) (s + 1)) (by omega)
        · omega

/-- The day-indexed task counts of the spec scenario: two tasks on day
N - 2, one task on day N - 1, none on day N (N = 0 here). -/
def scenarioTasksOn : Int → Nat :=
  fun d => if d = -2 then 2 else if d = -1 then 1 else 0

/-- The day-indexed completion counts of the spec scenario: two completions
on day N - 2 and none elsewhere. -/
def scenarioCompletionsOn : Int → Nat :=
  fun d => if d = -2 then 2 else 0

/-- C3: the streak walk goes backward from today for at most 365 days (the
result never exceeds 365); a day with zero scheduled tasks is skipped
without touching the streak; a day with tasks continues the walk with the
streak incremented exactly when the completion count equals the task count,
and otherwise stops the walk returning the accumulated count; on the
concrete scenario (two tasks and two completions on day N - 2, one task and
no completion on day N - 1, nothing on day N) the streak is 0. -/
theorem claim_C3_streak (tasksOn completionsOn : Int → Nat) (today : Int) :
    (∀ fuel i s, tasksOn (today - i) = 0 →
        streakGo tasksOn completionsOn today (fuel + 1) i s =
          streakGo tasksOn completionsOn today fuel (i + 1) s) ∧
      (∀ fuel i s, tasksOn (today - i) ≠ 0 →
        completionsOn (today - i) = tasksOn (today - i) →
        streakGo tasksOn completionsOn today (fuel + 1) i s =
          streakGo tasksOn completionsOn today fuel (i + 1) (s + 1)) ∧
      (∀ fuel i s, tasksOn (today - i) ≠ 0 →
        completionsOn (today - i) ≠ tasksOn (today - i) →
        streakGo tasksOn completionsOn today (fuel + 1) i s = s) ∧
      calculateStreak tasksOn completionsOn today ≤ 365 ∧
      calculateStreak scenarioTasksOn scenarioCompletionsOn 0 = 0 := by
  refine ⟨?_, ?_, ?_, ?_, by decide⟩
  · intro fuel i s h
    simp [streakGo, h]
  · intro fuel i s h1 h2
    simp [streakGo, h1, h2]
  · intro fuel i s h1 h2
    simp [streakGo, h1, h2]
  · have := streakGo_le tasksOn completionsOn today 365 0 0
    unfold calculateStreak
    omega

/-- Witness for C3: the stop step of the walk applied on the concrete
scenario at day N - 1. -/
theorem claim_C3_streak_witness :
    scenarioTasksOn (0 - 1) ≠ 0 ∧
      scenarioCompletionsOn (0 - 1) ≠ scenarioTasksOn (0 - 1) ∧
      streakGo scenarioTasksOn scenarioCompletionsOn 0 (4 + 1) 1 0 = 0 :=
  ⟨by decide, by decide,
    (claim_C3_streak scenarioTasksOn scenarioCompletionsOn 0).2.2.1 4 1 0
      (by decide) (by decide)⟩

/-! ### Claim theorems for completeTask -/

theorem isTaskCompletedToday_iff (st : DBState) (taskId : String) (now : Int) :
    isTaskCompletedToday st taskId now = true ↔
      ∃ c ∈ st.completions, c.taskId = taskId ∧ msDay c.completedAt = msDay now := by
  unfold isTaskCompletedToday
  rw [decide_eq_true_eq, List.countP_pos_iff]
  constructor
  · rintro ⟨c, hc, hp⟩
    simp only [Bool.and_eq_true, beq_iff_eq] at hp
    exact ⟨c, hc, hp⟩
  · rintro ⟨c, hc, h1, h2⟩
    exact ⟨c, hc, by simp [h1, h2]⟩

/-- C4: when the task exists, `completeTask` fails with the distinguished
already-completed condition exactly when a completion row for that task
already exists on the current calendar day (and then only the error is
returned, recording nothing); when no such completion exists it records
exactly one new completion row; a second call for the same task at any
instant of the same calendar day then fails with the duplicate condition. -/
theorem claim_C4_complete_task (st : DBState) (taskId : String)
    (notes notes2 : Option String) (id id2 : String) (now now2 : Int)
    (hex : (st.tasks.any fun t => t.id == taskId) = true)
    (hday : msDay now2 = msDay now) :
    (completeTask st taskId notes id now = .error .alreadyCompleted ↔
        ∃ c ∈ st.completions, c.taskId = taskId ∧ msDay c.completedAt = msDay now) ∧
      (isTaskCompletedToday st taskId now = false →
        completeTask st taskId notes id now =
            .ok { st with completions :=
              st.completions ++ [⟨id, taskId, now, jsOrNull notes⟩] } ∧
          completeTask { st with completions :=
              st.completions ++ [⟨id, taskId, now, jsOrNull notes⟩] }
            taskId notes2 id2 now2 = .error .alreadyCompleted) := by
  have hfind : ∃ t, getTaskById st taskId = some t := by
    rw [← Option.isSome_iff_exists]
    unfold getTaskById
    rw [List.find?_isSome]
    obtain ⟨t, ht, hp⟩ := List.any_eq_true.mp hex
    exact ⟨t, ht, hp⟩
  obtain ⟨t, ht⟩ := hfind
  constructor
  · rw [← isTaskCompletedToday_iff]
    unfold completeTask
    rw [ht]
    cases hcomp : isTaskCompletedToday st taskId now <;> simp [hcomp]
  · intro hcomp
    constructor
    · unfold completeTask
      rw [ht]
      simp [hcomp, dbCompleteTask]
    · have ht2 : getTaskById
          { st with completions :=
            st.completions ++ [⟨id, taskId, now, jsOrNull notes⟩] } taskId =
          some t := ht
      have hdone : isTaskCompletedToday
          { st with completions :=
            st.completions ++ [⟨id, taskId, now, jsOrNull notes⟩] }
          taskId now2 = true := by
        rw [isTaskCompletedToday_iff]
        exact ⟨⟨id, taskId, now, jsOrNull notes⟩, by simp, rfl, by rw [hday]⟩
      unfold completeTask
      rw [ht2]
      simp [hdone]

/-- Concrete task for the C4 witness. -/
def w4Task : Task :=
  { id := "t1", title := "laundry", description := none, type := "chore",
    dueDate := ⟨2024, 0, 1⟩, dueTime := none, isRecurring := false,
    recurrencePattern := none, recurrenceInterval := none, priority := "low",
    categoryId := none }

/-- Concrete persistence state for the C4 witness: one task, no completion. -/
def w4State : DBState :=
  { tasks := [w4Task], completions := [] }

/-- Concrete completion instant for the C4 witness: 02:00 on day 19723. -/
def w4Now : Int := 19723 * 86400000 + 7200000

/-- Witness for C4: completing, then completing again one hour later on the
same calendar day. -/
theorem claim_C4_complete_task_witness :
    completeTask w4State "t1" none "c1" w4Now =
        .ok { w4State with completions :=
          w4State.completions ++ [⟨"c1", "t1", w4Now, jsOrNull none⟩] } ∧
      completeTask { w4State with completions :=
          w4State.completions ++ [⟨"c1", "t1", w4Now, jsOrNull none⟩] }
        "t1" none "c2" (w4Now + 3600000) = .error .alreadyCompleted :=
  (claim_C4_complete_task w4State "t1" none none "c1" "c2" w4Now (w4Now + 3600000)
    (by decide) (by decide)).2 (by decide)

/-! ### Claim theorems for the settings store -/

/-- Concrete weekly recurring definition used to show the stored horizon is
consumed unchanged by the generation loop. -/
def w10Task : TaskInput :=
  { title := "water plants", description := none, type := "chore",
    dueDate := ⟨2024, 0, 1⟩, dueTime := none, isRecurring := true,
    recurrencePattern := some "weekly", recurrenceInterval := none,
    priority := "low", categoryId := none }

/-- Concrete current day for the C10 horizon demonstration. -/
def w10Today : CDate := ⟨2024, 0, 1⟩

/-- C10: `getSettings` is total — a failed read and an empty read both
yield the defaults (30 generation days, system theme); a stored object is
merged over the defaults field by field with no range validation, so any
stored `recurringTaskGenerationDays` — including values outside 1..365 —
is returned unchanged; a stored horizon of 0 (outside the documented
range) flows into the creation-path generation loop unchanged, truncating
the horizon to the due date alone. -/
theorem claim_C10_get_settings (read : Except String (Option StoredSettings)) (n : Nat) :
    (∀ e, getSettings (.error e) = DEFAULT_SETTINGS) ∧
      getSettings (.ok none) = DEFAULT_SETTINGS ∧
      DEFAULT_SETTINGS.recurringTaskGenerationDays = 30 ∧
      DEFAULT_SETTINGS.theme = "system" ∧
      (∀ s, getSettings (.ok (some s)) =
          { recurringTaskGenerationDays := s.recurringTaskGenerationDays.getD 30
            theme := s.theme.getD "system" }) ∧
      (getSettings (.ok (some ⟨some n, none⟩))).recurringTaskGenerationDays = n ∧
      (getSettings read = DEFAULT_SETTINGS ∨ ∃ s, read = .ok (some s)) ∧
      createLoop w10Task
          (addDays (getSettings (.ok (some ⟨some 0, none⟩))).recurringTaskGenerationDays
            w10Today)
          (fun _ => true) 10 w10Task.dueDate 0 0 =
        [instanceOfInput w10Task w10Today] := by
  refine ⟨fun e => rfl, rfl, rfl, rfl, fun s => rfl, rfl, ?_, by decide⟩
  match read with
  | .error e => exact .inl rfl
  | .ok none => exact .inl rfl
  | .ok (some s) => exact .inr ⟨s, rfl⟩

/-! ### Claim theorems for the generation loops -/

theorem createLoop_mem (task : TaskInput) (endDate : CDate) (persistOk : Nat → Bool) :
    ∀ fuel cur count idx inst,
      inst ∈ createLoop task endDate persistOk fuel cur count idx →
      ∃ c, inst = instanceOfInput task c := by
  intro fuel
  induction fuel with
  | zero =>
      intro cur count idx inst h
      simp [createLoop] at h
  | succ f ih =>
      intro cur count idx inst h
      simp only [createLoop] at h
      split at h
      · split at h
        · rcases List.mem_cons.mp h with h1 | h1
          · exact ⟨cur, h1⟩
          · exact ih _ _ _ _ h1
        · exact ih _ _ _ _ h
      · simp at h

theorem futureGenLoop_mem (parent : Task) (endDate : CDate) (pattern : String)
    (interval : Option Nat) :
    ∀ fuel cur inst,
      inst ∈ futureGenLoop parent endDate pattern interval fuel cur →
      ∃ c, inst = instanceOfTask parent c := by
  intro fuel
  induction fuel with
  | zero =>
      intro cur inst h
      simp [futureGenLoop] at h
  | succ f ih =>
      intro cur inst h
      simp only [futureGenLoop] at h
      split at h
      · rcases List.mem_cons.mp h with h1 | h1
        · exact ⟨cur, h1⟩
        · exact ih _ _ h1
      · simp at h

/-- C2: every instance materialized by either generation path — the creation
loop of `createRecurringTaskWithInstances` and the reconciliation loop of
`generateFutureRecurringInstances` — carries `isRecurring = false` and no
recurrence pattern or interval, whatever recurring definition is given. -/
theorem claim_C2_instances_non_recurring (inst : TaskInput) :
    (∀ (task : TaskInput) (endDate : CDate) (persistOk : Nat → Bool) fuel cur count idx,
        inst ∈ createLoop task endDate persistOk fuel cur count idx →
        inst.isRecurring = false ∧ inst.recurrencePattern = none ∧
          inst.recurrenceInterval = none) ∧
      (∀ (parent : Task) (today : CDate) (settings : UserSettings),
        inst ∈ futureInstances parent today settings →
        inst.isRecurring = false ∧ inst.recurrencePattern = none ∧
          inst.recurrenceInterval = none) := by
  constructor
  · intro task endDate persistOk fuel cur count idx h
    obtain ⟨c, hc⟩ := createLoop_mem task endDate persistOk fuel cur count idx inst h
    subst hc
    exact ⟨rfl, rfl, rfl⟩
  · intro parent today settings h
    obtain ⟨c, hc⟩ := futureGenLoop_mem parent
      (addDays settings.recurringTaskGenerationDays today)
      (parent.recurrencePattern.getD "") parent.recurrenceInterval 365 _ inst h
    subst hc
    exact ⟨rfl, rfl, rfl⟩

/-- Concrete daily recurring definition for the C2 witness. -/
def w2Task : TaskInput :=
  { title := "meds", description := none, type := "task",
    dueDate := ⟨2024, 5, 10⟩, dueTime := some (8, 0), isRecurring := true,
    recurrencePattern := some "daily", recurrenceInterval := none,
    priority := "high", categoryId := none }

/-- Witness for C2 on a concrete created instance. -/
theorem claim_C2_instances_non_recurring_witness :
    instanceOfInput w2Task ⟨2024, 5, 10⟩ ∈
        createLoop w2Task (addDays 2 ⟨2024, 5, 10⟩) (fun _ => true) 10
          w2Task.dueDate 0 0 ∧
      (instanceOfInput w2Task ⟨2024, 5, 10⟩).isRecurring = false ∧
      (instanceOfInput w2Task ⟨2024, 5, 10⟩).recurrencePattern = none ∧
      (instanceOfInput w2Task ⟨2024, 5, 10⟩).recurrenceInterval = none :=
  ⟨by decide,
    (claim_C2_instances_non_recurring (instanceOfInput w2Task ⟨2024, 5, 10⟩)).1
      w2Task (addDays 2 ⟨2024, 5, 10⟩) (fun _ => true) 10 w2Task.dueDate 0 0 (by decide)⟩

/-- C6: the creation path tolerates partial persistence failure — a failed
`createTask` call skips to the next loop iteration without aborting (the
loop recursion continues with the advanced cursor and unchanged success
count); the call returns the first successfully created instance, and it
fails with the generation error exactly when no instance was created. -/
theorem claim_C6_partial_failure (task : TaskInput) (today : CDate)
    (settings : UserSettings) (persistOk : Nat → Bool) (fuel : Nat) :
    (createRecurringTaskWithInstances task today settings persistOk fuel =
          .error .generationFailed ↔
        createLoop task (addDays settings.recurringTaskGenerationDays today)
          persistOk fuel task.dueDate 0 0 = []) ∧
      (∀ first rest,
        createLoop task (addDays settings.recurringTaskGenerationDays today)
            persistOk fuel task.dueDate 0 0 = first :: rest →
        createRecurringTaskWithInstances task today settings persistOk fuel = .ok first) ∧
      (∀ f endDate cur count idx,
        (dateLe cur endDate && decide (count < 365)) = true →
        persistOk idx = false →
        createLoop task endDate persistOk (f + 1) cur count idx =
          createLoop task endDate persistOk f
            (getNextRecurrenceDate cur (task.recurrencePattern.getD "")
              task.recurrenceInterval)
            count (idx + 1)) := by
  refine ⟨?_, ?_, ?_⟩
  · unfold createRecurringTaskWithInstances
    cases h : createLoop task (addDays settings.recurringTaskGenerationDays today)
        persistOk fuel task.dueDate 0 0 <;> simp [h]
  · intro first rest h
    unfold createRecurringTaskWithInstances
    simp [h]
  · intro f endDate cur count idx hguard hfail
    simp only [createLoop, hguard, if_true, hfail, if_false]
    simp

/-- Concrete daily recurring definition for the C6 witness. -/
def w6Task : TaskInput :=
  { title := "stretch", description := none, type := "task",
    dueDate := ⟨2024, 2, 5⟩, dueTime := none, isRecurring := true,
    recurrencePattern := some "daily", recurrenceInterval := none,
    priority := "medium", categoryId := none }

/-- Concrete settings for the C6 witness: a two-day horizon. -/
def w6Settings : UserSettings :=
  { recurringTaskGenerationDays := 2, theme := "system" }

/-- The C6 witness persistence oracle: the first `createTask` call fails,
the later calls succeed. -/
def w6PersistOk : Nat → Bool := fun idx => idx != 0

/-- Witness for C6: with a failing first persistence call, the loop keeps
going and the call returns the first instance that was actually created
(the one dated one day after the definition due date). -/
theorem claim_C6_partial_failure_witness :
    createLoop w6Task (addDays w6Settings.recurringTaskGenerationDays ⟨2024, 2, 5⟩)
        w6PersistOk 10 w6Task.dueDate 0 0 =
      instanceOfInput w6Task ⟨2024, 2, 6⟩ :: [instanceOfInput w6Task ⟨2024, 2, 7⟩] ∧
    createRecurringTaskWithInstances w6Task ⟨2024, 2, 5⟩ w6Settings w6PersistOk 10 =
      .ok (instanceOfInput w6Task ⟨2024, 2, 6⟩) :=
  ⟨by decide,
    (claim_C6_partial_failure w6Task ⟨2024, 2, 5⟩ w6Settings w6PersistOk 10).2.1
      (instanceOfInput w6Task ⟨2024, 2, 6⟩) [instanceOfInput w6Task ⟨2024, 2, 7⟩]
      (by decide)⟩

/-! ### Claim theorems for mostCommonLateHours -/

theorem mem_insertAscNoDup (k : Nat) : ∀ (l : List Nat) (y : Nat),
    y ∈ insertAscNoDup k l → y = k ∨ y ∈ l := by
  intro l
  induction l with
  | nil =>
      intro y hy
      simp [insertAscNoDup] at hy
      exact .inl hy
  | cons x xs ih =>
      intro y hy
      unfold insertAscNoDup at hy
      by_cases h1 : k < x
      · rw [if_pos h1] at hy
        rcases List.mem_cons.mp hy with rfl | hy2
        · exact .inl rfl
        · exact .inr hy2
      · rw [if_neg h1] at hy
        by_cases h2 : k = x
        · rw [if_pos h2] at hy
          exact .inr hy
        · rw [if_neg h2] at hy
          rcases List.mem_cons.mp hy with rfl | hy2
          · exact .inr (List.mem_cons_self _ _)
          · rcases ih y hy2 with h3 | h3
            · exact .inl h3
            · exact .inr (List.mem_cons_of_mem _ h3)

theorem pairwise_insertAscNoDup (k : Nat) : ∀ l : List Nat,
    l.Pairwise (· < ·) → (insertAscNoDup k l).Pairwise (· < ·) := by
  intro l
  induction l with
  | nil =>
      intro h
      simp [insertAscNoDup]
  | cons x xs ih =>
      intro h
      rw [List.pairwise_cons] at h
      obtain ⟨hx, hxs⟩ := h
      unfold insertAscNoDup
      by_cases h1 : k < x
      · rw [if_pos h1, List.pairwise_cons]
        refine ⟨fun y hy => ?_, List.pairwise_cons.mpr ⟨hx, hxs⟩⟩
        rcases List.mem_cons.mp hy with rfl | hy2
        · exact h1
        · exact Nat.lt_trans h1 (hx y hy2)
      · rw [if_neg h1]
        by_cases h2 : k = x
        · rw [if_pos h2]
          exact List.pairwise_cons.mpr ⟨hx, hxs⟩
        · rw [if_neg h2, List.pairwise_cons]
          refine ⟨fun y hy => ?_, ih hxs⟩
          rcases mem_insertAscNoDup k xs y hy with rfl | hy2
          · omega
          · exact hx y hy2

theorem ascKeys_pairwise (l : List Nat) : (ascKeys l).Pairwise (· < ·) := by
  unfold ascKeys
  suffices h : ∀ acc : List Nat, acc.Pairwise (· < ·) →
      (l.foldl (fun acc k => insertAscNoDup k acc) acc).Pairwise (· < ·) by
    exact h [] (by simp)
  induction l with
  | nil =>
      intro acc hacc
      simpa using hacc
  | cons x xs ih =>
      intro acc hacc
      simp only [List.foldl_cons]
      exact ih _ (pairwise_insertAscNoDup x acc hacc)

theorem hourCountEntries_keys_pairwise (rounded : List Nat) :
    (hourCountEntries rounded).Pairwise (fun a b => a.1 < b.1) := by
  unfold hourCountEntries
  exact (ascKeys_pairwise rounded).map _ (fun a b h => h)

/-- Insertion for the amended ordering: strictly descending by count with
ties broken by ascending bucket value. -/
def insertByLex (x : Nat × Nat) : List (Nat × Nat) → List (Nat × Nat)
  | [] => [x]
  | y :: ys =>
      if y.2 < x.2 ∨ (x.2 = y.2 ∧ x.1 < y.1) then x :: y :: ys
      else y :: insertByLex x ys

/-- Sort by descending count with ties broken by ascending bucket value. -/
def sortByLex (l : List (Nat × Nat)) : List (Nat × Nat) :=
  l.foldr insertByLex []

theorem mem_insertByCountStable (x : Nat × Nat) : ∀ (l : List (Nat × Nat)) y,
    y ∈ insertByCountStable x l → y = x ∨ y ∈ l := by
  intro l
  induction l with
  | nil =>
      intro y hy
      simp [insertByCountStable] at hy
      exact .inl hy
  | cons z zs ih =>
      intro y hy
      unfold insertByCountStable at hy
      by_cases h1 : z.2 ≤ x.2
      · rw [if_pos h1] at hy
        rcases List.mem_cons.mp hy with rfl | hy2
        · exact .inl rfl
        · exact .inr hy2
      · rw [if_neg h1] at hy
        rcases List.mem_cons.mp hy with rfl | hy2
        · exact .inr (List.mem_cons_self _ _)
        · rcases ih y hy2 with h3 | h3
          · exact .inl h3
          · exact .inr (List.mem_cons_of_mem _ h3)

theorem mem_sortByCountStable : ∀ (l : List (Nat × Nat)) y,
    y ∈ sortByCountStable l → y ∈ l := by
  intro l
  induction l with
  | nil =>
      intro y hy
      simpa [sortByCountStable] using hy
  | cons x xs ih =>
      intro y hy
      have hy2 : y ∈ insertByCountStable x (sortByCountStable xs) := hy
      rcases mem_insertByCountStable x _ y hy2 with rfl | hy3
      · exact List.mem_cons_self _ _
      · exact List.mem_cons_of_mem _ (ih y hy3)

theorem insert_stable_eq_lex (x : Nat × Nat) : ∀ l : List (Nat × Nat),
    (∀ y ∈ l, x.1 < y.1) → insertByCountStable x l = insertByLex x l := by
  intro l
  induction l with
  | nil =>
      intro hall
      rfl
  | cons y ys ih =>
      intro hall
      have hxy : x.1 < y.1 := hall y (List.mem_cons_self _ _)
      unfold insertByCountStable insertByLex
      by_cases h1 : y.2 ≤ x.2
      · rw [if_pos h1, if_pos (by omega)]
      · rw [if_neg h1, if_neg (by omega)]
        rw [ih fun z hz => hall z (List.mem_cons_of_mem _ hz)]

theorem sort_stable_eq_lex : ∀ l : List (Nat × Nat),
    l.Pairwise (fun a b => a.1 < b.1) →
    sortByCountStable l = sortByLex l := by
  intro l
  induction l with
  | nil =>
      intro h
      rfl
  | cons x xs ih =>
      intro h
      rw [List.pairwise_cons] at h
      obtain ⟨hx, hxs⟩ := h
      show insertByCountStable x (sortByCountStable xs) = insertByLex x (sortByLex xs)
      rw [← ih hxs]
      exact insert_stable_eq_lex x (sortByCountStable xs)
        fun y hy => hx y (mem_sortByCountStable xs y hy)

/-- The bucket keys in the order the claim describes: first-seen order over
the rounded late-hour list. -/
def firstSeenKeys (l : List Nat) : List Nat :=
  l.foldl (fun acc k => if k ∈ acc then acc else acc ++ [k]) []

/-- `mostCommonLateHours` as the claim words it: frequency buckets
enumerated in first-seen order, stably sorted by descending frequency (so
ties stay in first-seen order), first three, keys only. -/
def firstSeenMostCommon (rounded : List Nat) : List Nat :=
  ((sortByCountStable ((firstSeenKeys rounded).map fun k => (k, rounded.count k))).take
    3).map (·.1)

/-- `mostCommonLateHours` as amended: up to three buckets ordered by
descending frequency, ties between equally frequent buckets broken by
ascending bucket value. -/
def amendedMostCommon (rounded : List Nat) : List Nat :=
  ((sortByLex (hourCountEntries rounded)).take 3).map (·.1)

/-- The C5 counterexample task: due Jan 1 2024, no due time. -/
def cx5Task : Task :=
  { id := "t5", title := "mop", description := none, type := "chore",
    dueDate := ⟨2024, 0, 1⟩, dueTime := none, isRecurring := false,
    recurrencePattern := none, recurrenceInterval := none, priority := "low",
    categoryId := none }

/-- First C5 completion: five hours late. -/
def cx5A : TaskCompletion :=
  { id := "c5a", taskId := "t5",
    completedAt := codeDueDateTime cx5Task + 5 * msPerHour, notes := none }

/-- Second C5 completion: two hours late. -/
def cx5B : TaskCompletion :=
  { id := "c5b", taskId := "t5",
    completedAt := codeDueDateTime cx5Task + 2 * msPerHour, notes := none }

/-- C5 is false as stated: with late completions first seen as five hours
then two hours late (each bucket of frequency one), the code returns
`[2, 5]` — `Object.entries` enumerates the nonnegative integer keys of the
count object in ascending numeric order, so the stable sort leaves ties in
ascending bucket order, not first-encountered order, which would give
`[5, 2]`. -/
theorem rat_floor_eq_floor (q : ℚ) : q.floor = ⌊q⌋ := rfl

theorem roundNearest_five : roundNearest 5 = 5 := by
  unfold roundNearest
  rw [rat_floor_eq_floor,
    show ⌊(5 : ℚ) + 1 / 2⌋ = 5 from by rw [Int.floor_eq_iff] <;> norm_num]
  rfl

theorem roundNearest_two : roundNearest 2 = 2 := by
  unfold roundNearest
  rw [rat_floor_eq_floor,
    show ⌊(2 : ℚ) + 1 / 2⌋ = 2 from by rw [Int.floor_eq_iff] <;> norm_num]
  rfl

/-- The analytics record of the five-hours-late completion. -/
theorem cx5A_analytics : analyzeTaskCompletion cx5Task cx5A =
    { wasCompletedLate := true, hoursLate := some 5, daysLate := some 0,
      completionDateTime := cx5A.completedAt,
      dueDateTime := codeDueDateTime cx5Task } := by
  unfold analyzeTaskCompletion
  rw [if_pos (by decide)]
  rw [show cx5A.completedAt - codeDueDateTime cx5Task = ((18000000 : Int)) from by decide]
  rw [show ((18000000 : Int) : ℚ) / (1000 * 60 * 60) = 5 from by norm_num]
  rw [rat_floor_eq_floor,
    show ⌊(5 : ℚ) / 24⌋ = 0 from by rw [Int.floor_eq_iff] <;> norm_num]

/-- The analytics record of the two-hours-late completion. -/
theorem cx5B_analytics : analyzeTaskCompletion cx5Task cx5B =
    { wasCompletedLate := true, hoursLate := some 2, daysLate := some 0,
      completionDateTime := cx5B.completedAt,
      dueDateTime := codeDueDateTime cx5Task } := by
  unfold analyzeTaskCompletion
  rw [if_pos (by decide)]
  rw [show cx5B.completedAt - codeDueDateTime cx5Task = ((7200000 : Int)) from by decide]
  rw [show ((7200000 : Int) : ℚ) / (1000 * 60 * 60) = 2 from by norm_num]
  rw [rat_floor_eq_floor,
    show ⌊(2 : ℚ) / 24⌋ = 0 from by rw [Int.floor_eq_iff] <;> norm_num]

/-- The rounded late-hour buckets of the C5 counterexample input, in
first-seen order: five then two. -/
theorem cx5_rounded :
    (lateHoursOf (analyticsOf [cx5Task] [cx5A, cx5B])).map roundNearest = [5, 2] := by
  have hanalytics : analyticsOf [cx5Task] [cx5A, cx5B] =
      [analyzeTaskCompletion cx5Task cx5A, analyzeTaskCompletion cx5Task cx5B] := rfl
  rw [hanalytics, cx5A_analytics, cx5B_analytics]
  have h5 : ((5 : ℚ) == 0) = false := beq_eq_false_iff_ne.mpr (by norm_num)
  have h2 : ((2 : ℚ) == 0) = false := beq_eq_false_iff_ne.mpr (by norm_num)
  unfold lateHoursOf truthyLate
  simp [h5, h2, roundNearest_five, roundNearest_two]

theorem claim_C5_counterexample :
    (analyzeCompletionStats [cx5Task] [cx5A, cx5B]).mostCommonLateHours = [2, 5] ∧
      firstSeenMostCommon
        ((lateHoursOf (analyticsOf [cx5Task] [cx5A, cx5B])).map roundNearest) = [5, 2] ∧
      (analyzeCompletionStats [cx5Task] [cx5A, cx5B]).mostCommonLateHours ≠
        firstSeenMostCommon
          ((lateHoursOf (analyticsOf [cx5Task] [cx5A, cx5B])).map roundNearest) := by
  have hcode : (analyzeCompletionStats [cx5Task] [cx5A, cx5B]).mostCommonLateHours
      = [2, 5] := by
    show mostCommonOf ((lateHoursOf (analyticsOf [cx5Task] [cx5A, cx5B])).map roundNearest)
      = [2, 5]
    rw [cx5_rounded]
    decide
  have hspec : firstSeenMostCommon
      ((lateHoursOf (analyticsOf [cx5Task] [cx5A, cx5B])).map roundNearest) = [5, 2] := by
    rw [cx5_rounded]
    decide
  refine ⟨hcode, hspec, ?_⟩
  rw [hcode, hspec]
  decide

/-- C5 (amended): `mostCommonLateHours` is the rounded late-hour buckets
ordered by descending frequency with ties between equally frequent buckets
broken by ascending bucket value (not first-encountered order), truncated
to at most three buckets. -/
theorem claim_C5_most_common_late_hours (tasks : List Task)
    (completions : List TaskCompletion) :
    (analyzeCompletionStats tasks completions).mostCommonLateHours =
        amendedMostCommon
          ((lateHoursOf (analyticsOf tasks completions)).map roundNearest) ∧
      (analyzeCompletionStats tasks completions).mostCommonLateHours.length ≤ 3 := by
  have hmain : (analyzeCompletionStats tasks completions).mostCommonLateHours =
      amendedMostCommon
        ((lateHoursOf (analyticsOf tasks completions)).map roundNearest) := by
    show mostCommonOf ((lateHoursOf (analyticsOf tasks completions)).map roundNearest) = _
    unfold mostCommonOf amendedMostCommon
    rw [sort_stable_eq_lex _ (hourCountEntries_keys_pairwise _)]
  refine ⟨hmain, ?_⟩
  rw [hmain]
  unfold amendedMostCommon
  rw [List.length_map]
  exact le_trans (List.length_take_le _ _) (le_refl _)

end JackiesList
